import Mathlib

/-!
Shallow embedding of the THM1176 field-probe driver
(`src/api/thm_usbtmc_api.py`, with `src/api/thm_visa_api.py` an identical
decoder/driver over a different transport).  Numeric values are modelled
as exact rationals (`ℚ`); Python ints as `ℤ`/`ℕ`; byte buffers as lists of
byte values; fallible Python code (raised exceptions) as `Except`.
-/

namespace Thm1176

/-- Errors raised by the Python code: `ValueError` from `int()` / the block
parser / `struct.unpack` (all decode failures, the spec's
`MalformedResponse`), `IndexError` from out-of-range list/str indexing,
blocking forever on a transport read modelled as `noResponse`, and
`np.hstack` over an unset (`None`) `last_reading` entry. -/
inductive Err
  | malformedResponse
  | indexError
  | noResponse
  | unsetReading
deriving DecidableEq

/-- The five fetch kinds, in the load-bearing source order
`fetch_kinds = ['Bx', 'By', 'Bz', 'Timestamp', 'Temperature']`. -/
inductive FetchKind
  | Bx
  | By
  | Bz
  | Timestamp
  | Temperature
deriving DecidableEq

instance : Fintype FetchKind :=
  ⟨⟨{FetchKind.Bx, FetchKind.By, FetchKind.Bz, FetchKind.Timestamp, FetchKind.Temperature}, by decide⟩,
   by intro x; cases x <;> decide⟩

def fetch_kinds : List FetchKind :=
  [.Bx, .By, .Bz, .Timestamp, .Temperature]

/-! ### Numeric string parsing (Python `int` and C `strtod`) -/

/-- Value of a decimal digit character. -/
def digitVal (c : Char) : Option ℕ :=
  if c.isDigit then some (c.toNat - 48) else none

/-- Value of a hexadecimal digit character. -/
def hexVal (c : Char) : Option ℕ :=
  if c.isDigit then some (c.toNat - 48)
  else if 'a' ≤ c ∧ c ≤ 'f' then some (c.toNat - 87)
  else if 'A' ≤ c ∧ c ≤ 'F' then some (c.toNat - 55)
  else none

/-- Value of an octal digit character. -/
def octVal (c : Char) : Option ℕ :=
  if '0' ≤ c ∧ c ≤ '7' then some (c.toNat - 48) else none

/-- Value of a binary digit character. -/
def binVal (c : Char) : Option ℕ :=
  if c = '0' ∨ c = '1' then some (c.toNat - 48) else none

/-- Digits-only positional parse in a given base; `none` on the empty
string or any non-digit (Python `int` raises `ValueError` there). -/
def parseNatInBase (base : ℕ) (dv : Char → Option ℕ) (cs : List Char) : Option ℕ :=
  if cs.isEmpty then none
  else cs.foldlM (fun a c => (dv c).map fun d => base * a + d) 0

/-- Decimal digit-string parse, `none` if empty or not all digits. -/
def parseNatDec (cs : List Char) : Option ℕ :=
  parseNatInBase 10 digitVal cs

/-- Python whitespace (the characters `str.strip` removes). -/
def isPySpace (c : Char) : Bool :=
  c = ' ' ∨ c = '\t' ∨ c = '\n' ∨ c = '\r' ∨ c = '\x0b' ∨ c = '\x0c'

/-- Strip leading and trailing whitespace from a character list
(Python `str.strip()` as applied by `int`/`float` conversions). -/
def trimChars (cs : List Char) : List Char :=
  ((cs.dropWhile isPySpace).reverse.dropWhile isPySpace).reverse

/-- Python `int(s)`: optional sign, decimal digits (whitespace trimmed). -/
def pyIntDec (s : String) : Option ℤ :=
  match trimChars s.data with
  | '-' :: r => (parseNatDec r).map fun n => -(n : ℤ)
  | '+' :: r => (parseNatDec r).map fun n => (n : ℤ)
  | r => (parseNatDec r).map fun n => (n : ℤ)

/-- Magnitude part of Python `int(s, 0)`: `0x`/`0o`/`0b` prefixed literals,
otherwise decimal with no leading zero (except an all-zero literal). -/
def parseNatBase0 (cs : List Char) : Option ℕ :=
  match cs with
  | [] => none
  | ['0'] => some 0
  | '0' :: c :: r =>
    if c = 'x' ∨ c = 'X' then parseNatInBase 16 hexVal r
    else if c = 'o' ∨ c = 'O' then parseNatInBase 8 octVal r
    else if c = 'b' ∨ c = 'B' then parseNatInBase 2 binVal r
    else if (c :: r).all (· = '0') then some 0
    else none
  | cs => parseNatDec cs

/-- Python `int(s, 0)` as used for the timestamp field. -/
def pyIntBase0 (s : String) : Option ℤ :=
  match trimChars s.data with
  | '-' :: r => (parseNatBase0 r).map fun n => -(n : ℤ)
  | '+' :: r => (parseNatBase0 r).map fun n => (n : ℤ)
  | r => (parseNatBase0 r).map fun n => (n : ℤ)

/-- Digits to a natural number (caller has already checked digit-ness). -/
def charsToNat (ds : List Char) : ℕ :=
  ds.foldl (fun a c => 10 * a + (c.toNat - 48)) 0

/-- Apply a decimal exponent to a parsed mantissa. -/
def applyExp (q : ℚ) (neg : Bool) (k : ℕ) : ℚ :=
  if neg then q / 10 ^ k else q * 10 ^ k

/-- Exponent suffix of a C float literal: optional sign then digits. -/
def parseExpSuffix (q : ℚ) (cs : List Char) : Option ℚ :=
  match cs with
  | '-' :: r => if r ≠ [] ∧ r.all Char.isDigit then some (applyExp q true (charsToNat r)) else none
  | '+' :: r => if r ≠ [] ∧ r.all Char.isDigit then some (applyExp q false (charsToNat r)) else none
  | r => if r ≠ [] ∧ r.all Char.isDigit then some (applyExp q false (charsToNat r)) else none

/-- One C `strtod`-style float literal (as consumed by
`np.fromstring(..., sep=',')` for the field-array text): optional sign,
integer digits, optional fraction, optional exponent; exact over `ℚ`. -/
def parseFloatQ (s : String) : Option ℚ :=
  let cs := trimChars s.data
  let (sign, cs) : ℚ × List Char :=
    match cs with
    | '-' :: r => (-1, r)
    | '+' :: r => (1, r)
    | r => (1, r)
  let intPart := cs.takeWhile Char.isDigit
  let cs1 := cs.dropWhile Char.isDigit
  let (fracPart, cs2) : List Char × List Char :=
    match cs1 with
    | '.' :: r => (r.takeWhile Char.isDigit, r.dropWhile Char.isDigit)
    | r => ([], r)
  if intPart.isEmpty ∧ fracPart.isEmpty then none
  else
    let mant : ℚ := (charsToNat intPart : ℚ) + (charsToNat fracPart : ℚ) / 10 ^ fracPart.length
    match cs2 with
    | [] => some (sign * mant)
    | 'e' :: r => (parseExpSuffix mant r).map (sign * ·)
    | 'E' :: r => (parseExpSuffix mant r).map (sign * ·)
    | _ => none

/-- Python `str.split(sep)` with a one-character separator, over
character lists: the (possibly empty) chunks between separators. -/
def splitChars (sep : Char) : List Char → List (List Char)
  | [] => [[]]
  | c :: rest =>
    if c = sep then
      [] :: splitChars sep rest
    else
      match splitChars sep rest with
      | h :: t => (c :: h) :: t
      | [] => [[c]]

/-- Python `str.split(sep)` with a one-character separator. -/
def pySplit (sep : Char) (s : String) : List String :=
  (splitChars sep s.data).map String.mk

/-- Python `str.replace('T', '')`: drop every `T` character. -/
def stripT (s : String) : String :=
  String.mk (s.data.filter (· ≠ 'T'))

/-- Model of `np.fromstring(s, sep=',')`: parse comma-separated float literals,
stopping at the first field that fails to parse (legacy numpy behavior). -/
def npFromstring (s : String) : List ℚ :=
  go (pySplit ',' s)
where
  go : List String → List ℚ
    | [] => []
    | f :: rest =>
      match parseFloatQ f with
      | some q => q :: go rest
      | none => []

/-! ### `np.linspace` and `Thm1176.str_conv` -/

/-- Model of `np.linspace(start, stop, num)` with `endpoint=True`, exact over `ℚ`
(the elements are `start + i * (stop - start) / (num - 1)`; for
`num = 1` numpy returns `[start]`). -/
def linspace (start stop : ℚ) (num : ℕ) : List ℚ :=
  if num = 1 then [start]
  else (List.range num).map fun i : ℕ =>
    start + (i : ℚ) * (stop - start) / ((num : ℚ) - 1)

/-- Model of `Thm1176.str_conv(self, input_str, kind)`: Timestamp is nanoseconds
scaled to seconds then expanded with `np.linspace` over
`block_size` points ending at the instant; Temperature is the integer
code broadcast `block_size` times; field axes strip the unit letter `T`
and parse a comma-separated list. -/
def str_conv (block_size : ℕ) (period : ℚ) (input_str : String) (kind : FetchKind) :
    Option (List ℚ) :=
  match kind with
  | .Timestamp =>
    (pyIntBase0 input_str).map fun t =>
      let val : ℚ := (t : ℚ) * (1 / 10 ^ 9)
      let time_offset := val - ((block_size : ℚ) - 1) * period
      linspace time_offset val block_size
  | .Temperature =>
    (pyIntDec input_str).map fun v => List.replicate block_size (v : ℚ)
  | _ => some (npFromstring (stripT input_str))

/-! ### Claim C1 -/

/-- Claim C1: for every timestamp string encoding an integer `t`
nanoseconds, every `block_size = n ≥ 1` and every `trigger_period = p`,
`str_conv` on the Timestamp kind returns the evenly spaced length-`n`
sequence whose `i`-th element is `t * 1e-9 - (n - 1 - i) * p`, i.e. the
sequence ending at `t * 1e-9` seconds and starting at
`t * 1e-9 - (n - 1) * p` seconds with spacing `p`
(`linspace(end - (n-1)*p, end, n)`). -/
theorem claim_C1 (s : String) (t : ℤ) (n : ℕ) (p : ℚ)
    (hn : 1 ≤ n) (hparse : pyIntBase0 s = some t) :
    str_conv n p s FetchKind.Timestamp
      = some ((List.range n).map fun i : ℕ =>
          (t : ℚ) / 10 ^ 9 - ((n : ℚ) - 1 - (i : ℚ)) * p) := by
  simp only [str_conv, hparse, Option.map_some']
  refine congrArg some ?_
  by_cases h1 : n = 1
  · subst h1
    simp only [linspace, if_pos rfl, List.range_succ, List.range_zero,
      List.nil_append, List.map_cons, List.map_nil, List.cons.injEq, and_true]
    push_cast
    ring_nf
  · have h2 : 2 ≤ n := by omega
    have hne : ((n : ℚ) - 1) ≠ 0 := by
      have h2q : (2 : ℚ) ≤ (n : ℚ) := by exact_mod_cast h2
      intro hc
      nlinarith
    simp only [linspace, if_neg h1]
    apply List.map_congr_left
    intro i _
    field_simp
    ring

/-- Witness for C1, the spec's concrete scenario: `block_size = 2`,
timestamp field `"2000000000"`, `trigger_period = 0.5` yields
`[1.5, 2.0]` seconds. -/
theorem claim_C1_witness :
    str_conv 2 (1/2) "2000000000" FetchKind.Timestamp = some [3/2, 2] := by
  have h := claim_C1 "2000000000" 2000000000 2 (1/2) (by decide) (by decide)
  rw [h]
  refine congrArg some ?_
  simp only [List.range_succ, List.range_zero, List.nil_append, List.map_cons,
    List.map_nil, List.map_append]
  norm_num

/-! ### Driver state (`Thm1176.__init__` attributes) -/

/-- Model of `self.last_reading`: one optional decoded sequence per fetch kind
(initialised to `None` for every kind). -/
structure Readings where
  Bx : Option (List ℚ)
  By : Option (List ℚ)
  Bz : Option (List ℚ)
  Timestamp : Option (List ℚ)
  Temperature : Option (List ℚ)
deriving DecidableEq

def Readings.get (r : Readings) : FetchKind → Option (List ℚ)
  | .Bx => r.Bx
  | .By => r.By
  | .Bz => r.Bz
  | .Timestamp => r.Timestamp
  | .Temperature => r.Temperature

/-- Model of `self.data_stack`: one accumulator list per fetch kind
(initialised to `[]` for every kind). -/
structure Stacks where
  Bx : List ℚ
  By : List ℚ
  Bz : List ℚ
  Timestamp : List ℚ
  Temperature : List ℚ
deriving DecidableEq

def Stacks.get (st : Stacks) : FetchKind → List ℚ
  | .Bx => st.Bx
  | .By => st.By
  | .Bz => st.Bz
  | .Timestamp => st.Timestamp
  | .Temperature => st.Temperature

/-- The mutable attributes of a `Thm1176` instance. -/
structure State where
  running : Bool
  stop : Bool
  fetch_cmd : Option String
  block_size : ℕ
  period : ℚ
  range : String
  average : ℤ
  format : String
  last_reading : Readings
  data_stack : Stacks
  errors : List String
deriving DecidableEq

/-- Class constants of `Thm1176`. -/
def ranges : List String := ["0.1T", "0.3T", "1T", "3T"]

def trigger_period_bounds : ℚ × ℚ := (122e-6, 2.79)

def base_fetch_cmd : String := ":FETCh:ARRay:"

def axes : List String := ["X", "Y", "Z"]

def n_digits : ℕ := 5

def defaults_block_size : ℕ := 10

def defaults_period : ℚ := 0.5

def defaults_range : String := "0.1T"

def defaults_average : ℤ := 1

def defaults_format : String := "INTEGER"

/-- The state `__init__` builds before its trailing `self.setup(**kwargs)`
call (usbtmc backend; the visa backend differs only in defaulting
`format` to ASCII). -/
def initState : State where
  running := false
  stop := false
  fetch_cmd := none
  block_size := defaults_block_size
  period := defaults_period
  range := defaults_range
  average := defaults_average
  format := defaults_format
  last_reading := ⟨none, none, none, none, none⟩
  data_stack := ⟨[], [], [], [], []⟩
  errors := []

/-! ### Command builder -/

/-- The instrument commands the driver can `write`/`ask`, as data
(one constructor per command string the source emits). -/
inductive Cmd
  | formatData (fmt : String)
  | senseRange (r : String)
  | averageCount (n : ℤ)
  | triggerSourceTimer
  | triggerTimer (period : ℚ)
  | trigCount (n : ℕ)
  | initContinuousOn
  | initCmd
  | fetchAsk (cmd : Option String)
  | fetchWrite (cmd : Option String)
  | readRaw
  | errorQuery
  | abortQuery
deriving DecidableEq

/-- Model of `Thm1176.set_periodic_trigger`: if the configured period lies in
`trigger_period_bounds`, emit the four trigger-setup commands and return
`True`; otherwise print a warning, emit nothing and return `False`.
Result: (commands written, warnings printed, return value). -/
def set_periodic_trigger (s : State) : List Cmd × List String × Bool :=
  if trigger_period_bounds.1 ≤ s.period ∧ s.period ≤ trigger_period_bounds.2 then
    ([.triggerSourceTimer, .triggerTimer s.period, .trigCount s.block_size,
      .initContinuousOn], [], true)
  else
    ([], ["Invalid trigger period value."], false)

/-- The `**kwargs` accepted by `Thm1176.setup` (a key that is absent from
the call is `none`; keys other than these five are ignored by `setup`). -/
structure SetupArgs where
  block_size : Option ℕ := none
  period : Option ℚ := none
  range : Option String := none
  average : Option ℤ := none
  format : Option String := none
deriving DecidableEq

/-- The per-cycle fetch command string `setup` builds:
`:FETCh:ARRay:{X|Y|Z}? {block_size},{n_digits};` for each axis followed
by the timestamp, temperature and status-byte queries. -/
def buildFetchCmd (block_size : ℕ) : String :=
  (axes.foldl (fun acc ax =>
      acc ++ base_fetch_cmd ++ ax ++ "? " ++ toString block_size ++ ","
        ++ toString n_digits ++ ";") "")
    ++ ":FETCH:TIMESTAMP?;:FETCH:TEMPERATURE?;*STB?"

/-- The `if 'block_size' in keys` block of `setup`. -/
def upd_block_size (kw : SetupArgs) (s : State) : State :=
  match kw.block_size with
  | some b => { s with block_size := b }
  | none => s

/-- The `if 'period' in keys` block of `setup`: a supplied period is
validated against the bounds; an out-of-range one prints a warning and
stores the default.  Also returns the warnings printed. -/
def upd_period (kw : SetupArgs) (s : State) : State × List String :=
  match kw.period with
  | some p =>
    if trigger_period_bounds.1 ≤ p ∧ p ≤ trigger_period_bounds.2 then
      ({ s with period := p }, [])
    else
      ({ s with period := defaults_period },
       ["Invalid trigger period value.", "Setting to default..."])
  | none => (s, [])

/-- The `if 'range' in keys` block of `setup`: a supplied value outside
`ranges` is silently ignored. -/
def upd_range (kw : SetupArgs) (s : State) : State :=
  match kw.range with
  | some r => if r ∈ ranges then { s with range := r } else s
  | none => s

/-- The `if 'average' in keys` block of `setup`. -/
def upd_average (kw : SetupArgs) (s : State) : State :=
  match kw.average with
  | some a => { s with average := a }
  | none => s

/-- The `if 'format' in keys` block of `setup`. -/
def upd_format (kw : SetupArgs) (s : State) : State :=
  match kw.format with
  | some f => { s with format := f }
  | none => s

/-- Model of `Thm1176.setup(**kwargs)`: run the five per-field update blocks in
source order, then emit the format / range / average commands, run
`set_periodic_trigger`, and rebuild `fetch_cmd`.
Result: (new state, commands written, warnings printed). -/
def setup (kw : SetupArgs) (s : State) : State × List Cmd × List String :=
  let s1 := upd_block_size kw s
  let pr := upd_period kw s1
  let s2 := upd_range kw pr.1
  let s3 := upd_average kw s2
  let s4 := upd_format kw s3
  let pt := set_periodic_trigger s4
  let cmds := [Cmd.formatData s4.format, Cmd.senseRange s4.range,
               Cmd.averageCount s4.average] ++ pt.1
  ({ s4 with fetch_cmd := some (buildFetchCmd s4.block_size) }, cmds, pr.2 ++ pt.2.1)

@[simp] theorem upd_block_size_period (kw : SetupArgs) (s : State) :
    (upd_block_size kw s).period = s.period := by
  cases h : kw.block_size <;> simp [upd_block_size, h]

@[simp] theorem upd_block_size_range (kw : SetupArgs) (s : State) :
    (upd_block_size kw s).range = s.range := by
  cases h : kw.block_size <;> simp [upd_block_size, h]

@[simp] theorem upd_block_size_average (kw : SetupArgs) (s : State) :
    (upd_block_size kw s).average = s.average := by
  cases h : kw.block_size <;> simp [upd_block_size, h]

@[simp] theorem upd_block_size_format (kw : SetupArgs) (s : State) :
    (upd_block_size kw s).format = s.format := by
  cases h : kw.block_size <;> simp [upd_block_size, h]

@[simp] theorem upd_period_block_size (kw : SetupArgs) (s : State) :
    (upd_period kw s).1.block_size = s.block_size := by
  cases h : kw.period <;> simp [upd_period, h]
  split <;> simp

@[simp] theorem upd_period_range (kw : SetupArgs) (s : State) :
    (upd_period kw s).1.range = s.range := by
  cases h : kw.period <;> simp [upd_period, h]
  split <;> simp

@[simp] theorem upd_period_average (kw : SetupArgs) (s : State) :
    (upd_period kw s).1.average = s.average := by
  cases h : kw.period <;> simp [upd_period, h]
  split <;> simp

@[simp] theorem upd_period_format (kw : SetupArgs) (s : State) :
    (upd_period kw s).1.format = s.format := by
  cases h : kw.period <;> simp [upd_period, h]
  split <;> simp

@[simp] theorem upd_range_block_size (kw : SetupArgs) (s : State) :
    (upd_range kw s).block_size = s.block_size := by
  cases h : kw.range <;> simp [upd_range, h]
  split <;> simp

@[simp] theorem upd_range_period (kw : SetupArgs) (s : State) :
    (upd_range kw s).period = s.period := by
  cases h : kw.range <;> simp [upd_range, h]
  split <;> simp

@[simp] theorem upd_range_average (kw : SetupArgs) (s : State) :
    (upd_range kw s).average = s.average := by
  cases h : kw.range <;> simp [upd_range, h]
  split <;> simp

@[simp] theorem upd_range_format (kw : SetupArgs) (s : State) :
    (upd_range kw s).format = s.format := by
  cases h : kw.range <;> simp [upd_range, h]
  split <;> simp

@[simp] theorem upd_average_block_size (kw : SetupArgs) (s : State) :
    (upd_average kw s).block_size = s.block_size := by
  cases h : kw.average <;> simp [upd_average, h]

@[simp] theorem upd_average_period (kw : SetupArgs) (s : State) :
    (upd_average kw s).period = s.period := by
  cases h : kw.average <;> simp [upd_average, h]

@[simp] theorem upd_average_range (kw : SetupArgs) (s : State) :
    (upd_average kw s).range = s.range := by
  cases h : kw.average <;> simp [upd_average, h]

@[simp] theorem upd_average_format (kw : SetupArgs) (s : State) :
    (upd_average kw s).format = s.format := by
  cases h : kw.average <;> simp [upd_average, h]

@[simp] theorem upd_format_block_size (kw : SetupArgs) (s : State) :
    (upd_format kw s).block_size = s.block_size := by
  cases h : kw.format <;> simp [upd_format, h]

@[simp] theorem upd_format_period (kw : SetupArgs) (s : State) :
    (upd_format kw s).period = s.period := by
  cases h : kw.format <;> simp [upd_format, h]

@[simp] theorem upd_format_range (kw : SetupArgs) (s : State) :
    (upd_format kw s).range = s.range := by
  cases h : kw.format <;> simp [upd_format, h]

@[simp] theorem upd_format_average (kw : SetupArgs) (s : State) :
    (upd_format kw s).average = s.average := by
  cases h : kw.format <;> simp [upd_format, h]

/-! ### Claim C5 -/

/-- Claim C5: the periodic-trigger step emits the four-command
trigger-setup sequence (source TIMer, timer period, trigger count =
block_size, continuous-init ON) if and only if
`122e-6 ≤ period ≤ 2.79`; outside that interval it emits none of them,
returns `False`, and prints the invalid-trigger-period warning. -/
theorem claim_C5 (s : State) :
    (trigger_period_bounds.1 ≤ s.period ∧ s.period ≤ trigger_period_bounds.2 →
      set_periodic_trigger s =
        ([.triggerSourceTimer, .triggerTimer s.period, .trigCount s.block_size,
          .initContinuousOn], [], true)) ∧
    (¬(trigger_period_bounds.1 ≤ s.period ∧ s.period ≤ trigger_period_bounds.2) →
      set_periodic_trigger s = ([], ["Invalid trigger period value."], false)) := by
  constructor
  · intro h
    simp [set_periodic_trigger, h]
  · intro h
    simp [set_periodic_trigger, h]

/-- Witness for C5: at period `0.5` s the four commands are emitted with
success; at period `3` s (out of range) nothing is emitted, the call
fails and the warning is printed. -/
theorem claim_C5_witness :
    set_periodic_trigger { initState with period := 1/2 } =
      ([.triggerSourceTimer, .triggerTimer (1/2), .trigCount 10,
        .initContinuousOn], [], true) ∧
    set_periodic_trigger { initState with period := 3 } =
      ([], ["Invalid trigger period value."], false) :=
  ⟨(claim_C5 { initState with period := 1/2 }).1 (by norm_num [trigger_period_bounds, initState]),
   (claim_C5 { initState with period := 3 }).2 (by norm_num [trigger_period_bounds, initState])⟩

/-! ### Claim C8 -/

/-- Claim C8: `setup` is a partial update — every absent field retains
its prior value and every supplied field is stored, except that a
supplied trigger period outside `[122e-6, 2.79]` stores the default
`0.5` s (not the supplied or prior value) and prints a warning. -/
theorem claim_C8 (kw : SetupArgs) (s : State) :
    (kw.block_size = none → (setup kw s).1.block_size = s.block_size) ∧
    (kw.period = none → (setup kw s).1.period = s.period) ∧
    (kw.range = none → (setup kw s).1.range = s.range) ∧
    (kw.average = none → (setup kw s).1.average = s.average) ∧
    (kw.format = none → (setup kw s).1.format = s.format) ∧
    (∀ b, kw.block_size = some b → (setup kw s).1.block_size = b) ∧
    (∀ p, kw.period = some p →
      (trigger_period_bounds.1 ≤ p ∧ p ≤ trigger_period_bounds.2 →
        (setup kw s).1.period = p) ∧
      (¬(trigger_period_bounds.1 ≤ p ∧ p ≤ trigger_period_bounds.2) →
        (setup kw s).1.period = defaults_period ∧
        "Invalid trigger period value." ∈ (setup kw s).2.2)) ∧
    (∀ a, kw.average = some a → (setup kw s).1.average = a) ∧
    (∀ f, kw.format = some f → (setup kw s).1.format = f) := by
  refine ⟨?_, ?_, ?_, ?_, ?_, ?_, ?_, ?_, ?_⟩
  · intro h
    simp [setup, upd_block_size, h]
  · intro h
    simp [setup, upd_period, h]
  · intro h
    simp [setup, upd_range, h]
  · intro h
    simp [setup, upd_average, h]
  · intro h
    simp [setup, upd_format, h]
  · intro b h
    simp [setup, upd_block_size, h]
  · intro p h
    refine ⟨fun hv => ?_, fun hv => ?_⟩
    · simp [setup, upd_period, h, if_pos hv]
    · refine ⟨?_, ?_⟩
      · simp [setup, upd_period, h, if_neg hv]
      · simp [setup, upd_period, h, if_neg hv]
  · intro a h
    simp [setup, upd_average, h]
  · intro f h
    simp [setup, upd_format, h]

/-- Witness for C8: supplying only an out-of-range period (`5` s) to a
fresh driver stores the default `0.5` s, warns, and leaves the other
four fields at their prior values. -/
theorem claim_C8_witness :
    (setup { period := some 5 } initState).1.block_size = 10 ∧
    (setup { period := some 5 } initState).1.period = defaults_period ∧
    "Invalid trigger period value." ∈ (setup { period := some 5 } initState).2.2 ∧
    (setup { period := some 5 } initState).1.range = "0.1T" ∧
    (setup { period := some 5 } initState).1.average = 1 ∧
    (setup { period := some 5 } initState).1.format = "INTEGER" := by
  have h := claim_C8 { period := some 5 } initState
  have hout : ¬(trigger_period_bounds.1 ≤ (5:ℚ) ∧ (5:ℚ) ≤ trigger_period_bounds.2) := by
    norm_num [trigger_period_bounds]
  refine ⟨h.1 rfl, (h.2.2.2.2.2.2.1 5 rfl).2 hout |>.1,
    (h.2.2.2.2.2.2.1 5 rfl).2 hout |>.2, h.2.2.1 rfl, h.2.2.2.1 rfl, h.2.2.2.2.1 rfl⟩

/-! ### Claim C10 -/

/-- Claim C10: a supplied `range` value outside
`{0.1T, 0.3T, 1T, 3T}` is silently ignored: the call behaves exactly as
if `range` had not been supplied at all — the stored range keeps its
prior value, no default is substituted and no warning is added (unlike
an invalid trigger period). -/
theorem claim_C10 (rg : String) (kw : SetupArgs) (s : State) (h : rg ∉ ranges) :
    setup { kw with range := some rg } s = setup { kw with range := none } s ∧
    (setup { kw with range := some rg } s).1.range = s.range := by
  have hupd : ∀ t : State, upd_range { kw with range := some rg } t = t := by
    intro t
    simp [upd_range, h]
  have hbs : ∀ t : State,
      upd_block_size { kw with range := some rg } t = upd_block_size kw t := by
    intro t
    simp [upd_block_size]
  have hp : ∀ t : State,
      upd_period { kw with range := some rg } t = upd_period kw t := by
    intro t
    simp [upd_period]
  have ha : ∀ t : State,
      upd_average { kw with range := some rg } t = upd_average kw t := by
    intro t
    simp [upd_average]
  have hf : ∀ t : State,
      upd_format { kw with range := some rg } t = upd_format kw t := by
    intro t
    simp [upd_format]
  have hnone : ∀ t : State, upd_range { kw with range := none } t = t := by
    intro t
    simp [upd_range]
  have hbs0 : ∀ t : State,
      upd_block_size { kw with range := none } t = upd_block_size kw t := by
    intro t
    simp [upd_block_size]
  have hp0 : ∀ t : State,
      upd_period { kw with range := none } t = upd_period kw t := by
    intro t
    simp [upd_period]
  have ha0 : ∀ t : State,
      upd_average { kw with range := none } t = upd_average kw t := by
    intro t
    simp [upd_average]
  have hf0 : ∀ t : State,
      upd_format { kw with range := none } t = upd_format kw t := by
    intro t
    simp [upd_format]
  constructor
  · simp only [setup, hupd, hbs, hp, ha, hf, hnone, hbs0, hp0, ha0, hf0]
  · simp only [setup, hupd, hbs, hp, ha, hf, upd_format_range, upd_average_range,
      upd_period_range, upd_block_size_range]

/-- Witness for C10: supplying the invalid range `"5T"` alone leaves a
fresh driver's stored range at `"0.1T"` and equals the no-range call. -/
theorem claim_C10_witness :
    setup { range := some "5T" } initState = setup {} initState ∧
    (setup { range := some "5T" } initState).1.range = "0.1T" := by
  have h := claim_C10 "5T" {} initState (by decide)
  exact ⟨h.1, h.2⟩

/-! ### Binary block parsing (`parse_ieee_block_header`, `from_binary_block`) -/

/-- A raw reply buffer: a list of byte values. -/
abbrev Bytes := List ℕ

/-- The byte value of the block marker `#`. -/
def hashByte : ℕ := 35

/-- The byte value of the field separator `;`. -/
def semiByte : ℕ := 59

/-- Value of an ASCII decimal digit byte. -/
def byteDigit (b : ℕ) : Option ℕ :=
  if 48 ≤ b ∧ b ≤ 57 then some (b - 48) else none

/-- Python `int(bytes)` on a digits-only byte slice (`ValueError`,
modelled by `none`, if empty or any non-digit byte). -/
def parseDigitsBytes (bs : Bytes) : Option ℕ :=
  if bs.isEmpty then none
  else bs.foldlM (fun a b => (byteDigit b).map fun d => 10 * a + d) 0

/-- Model of `parse_ieee_block_header(block)` (copied from pyVISA): find the `#`
marker (`ValueError` if absent), read the one-digit header length
(falling back to `0` for the indefinite form when that byte does not
parse as an integer), then the `header_length`-digit data length; the
indefinite form takes the data length to be the rest of the buffer
minus one trailing byte.  Returns `(offset, data_length)`. -/
def parse_ieee_block_header (block : Bytes) : Except Err (ℕ × ℤ) :=
  match block.findIdx? (· == hashByte) with
  | none => .error .malformedResponse
  | some begin_ =>
    let header_length : ℕ :=
      (parseDigitsBytes ((block.drop (begin_ + 1)).take 1)).getD 0
    let offset := begin_ + 2 + header_length
    if 0 < header_length then
      match parseDigitsBytes ((block.drop (begin_ + 2)).take header_length) with
      | some dl => .ok (offset, (dl : ℤ))
      | none => .error .malformedResponse
    else
      .ok (offset, (block.length : ℤ) - (offset : ℤ) - 1)

/-- One big-endian two's-complement 32-bit signed integer. -/
def decodeI32 (b0 b1 b2 b3 : ℕ) : ℤ :=
  let v := ((b0 * 256 + b1) * 256 + b2) * 256 + b3
  if v < 2 ^ 31 then (v : ℤ) else (v : ℤ) - 2 ^ 32

/-- Decode consecutive 4-byte groups as big-endian int32
(`struct.unpack` with format `>Ni`). -/
def decodeI32List : Bytes → List ℤ
  | b0 :: b1 :: b2 :: b3 :: rest => decodeI32 b0 b1 b2 b3 :: decodeI32List rest
  | _ => []

/-- Model of `from_binary_block(block, offset, data_length, 'i', True)` (copied
from pyVISA): `array_length = data_length // 4` big-endian int32 values
starting at `offset`; a buffer too short for them (or a negative length
or offset) raises, modelled as `malformedResponse`. -/
def from_binary_block (block : Bytes) (offset : ℤ) (data_length : ℤ) :
    Except Err (List ℤ) :=
  if 0 ≤ offset ∧ 0 ≤ data_length then
    let array_length := (Int.tdiv data_length 4).toNat
    if offset.toNat + 4 * array_length ≤ block.length then
      .ok (decodeI32List ((block.drop offset.toNat).take (4 * array_length)))
    else
      .error .malformedResponse
  else
    .error .malformedResponse

/-- Python `bytes[i:]` slicing with a possibly negative start index
(a negative index counts from the end, clamped at `0`). -/
def bytesDropInt (bs : Bytes) (i : ℤ) : Bytes :=
  if i < 0 then bs.drop ((bs.length : ℤ) + i).toNat else bs.drop i.toNat

/-- Python `bytes.split(b';')` with a one-byte separator: the list of
(possibly empty) chunks between separators. -/
def splitOnByte (sep : ℕ) : Bytes → List Bytes
  | [] => [[]]
  | b :: rest =>
    if b = sep then
      [] :: splitOnByte sep rest
    else
      match splitOnByte sep rest with
      | h :: t => (b :: h) :: t
      | [] => [[b]]

/-- Model of `bytes.decode('ascii')`: fails (`UnicodeDecodeError`, folded into
`malformedResponse`) on any byte above `0x7F`. -/
def decodeAscii (bs : Bytes) : Except Err String :=
  if bs.all (· < 128) then .ok (String.mk (bs.map Char.ofNat)) else .error .malformedResponse

/-- The ASCII string of a character list, as bytes. -/
def encodeAscii (s : String) : Bytes :=
  s.data.map Char.toNat

/-! ### Error drain and response parsing -/

/-- The error-drain loop shared by both decoders:
`res = ask(':SYSTEM:ERROR?;*STB?'); errors.append(res);`
`while res[0] != '0': res = ask(...); errors.append(res)`.
The device's successive replies are supplied as a list; exhausting it
means the real loop would block forever (`noResponse`), and indexing
`res[0]` of an empty reply raises `IndexError`.  Returns the grown error
log and the number of queries issued. -/
def drainErrors (errors : List String) : List String → Except Err (List String × ℕ)
  | [] => .error .noResponse
  | r :: rest =>
    if r.isEmpty then .error .indexError
    else if r.front = '0' then .ok (errors ++ [r], 1)
    else
      match drainErrors (errors ++ [r]) rest with
      | .ok (es, q) => .ok (es, q + 1)
      | .error e => .error e

/-- Model of `parsed[idx]` (Python list indexing raising `IndexError`). -/
def getField (parsed : List String) (idx : ℕ) : Except Err String :=
  match parsed.get? idx with
  | some f => .ok f
  | none => .error .indexError

/-- One iteration of the decoders' `str_conv(parsed[idx], key)` calls. -/
def convField (block_size : ℕ) (period : ℚ) (parsed : List String) (idx : ℕ)
    (kind : FetchKind) : Except Err (List ℚ) := do
  let f ← getField parsed idx
  match str_conv block_size period f kind with
  | some v => .ok v
  | none => .error .malformedResponse

/-- Model of `Thm1176.parse_ascii_responses(kind, res_in)`: split the reply on
`;`, convert fields `0..4` into `last_reading` in `fetch_kinds` order,
then drain errors when the final field is exactly `'4'`.  Returns the
new state and the number of error queries issued. -/
def parse_ascii_responses (drainResps : List String) (kind : String) (res_in : String)
    (s : State) : Except Err (State × ℕ) :=
  if kind = "fetch" then do
    let parsed := pySplit ';' res_in
    let vBx ← convField s.block_size s.period parsed 0 .Bx
    let vBy ← convField s.block_size s.period parsed 1 .By
    let vBz ← convField s.block_size s.period parsed 2 .Bz
    let vTs ← convField s.block_size s.period parsed 3 .Timestamp
    let vTe ← convField s.block_size s.period parsed 4 .Temperature
    let s1 := { s with last_reading := ⟨some vBx, some vBy, some vBz, some vTs, some vTe⟩ }
    if parsed.getLast? = some "4" then do
      match drainErrors s1.errors drainResps with
      | .ok (es, q) => .ok ({ s1 with errors := es }, q)
      | .error e => .error e
    else
      .ok (s1, 0)
  else
    .ok (s, 0)

/-- Model of `parsed[idx].decode('ascii')` for the binary tail fields. -/
def getFieldBytes (parsed : List Bytes) (idx : ℕ) : Except Err String :=
  match parsed.get? idx with
  | some f => decodeAscii f
  | none => .error .indexError

/-- Conversion by `str_conv` on an already decoded tail field (its `ValueError` on a
bad numeric literal becomes `malformedResponse`). -/
def convTail (block_size : ℕ) (period : ℚ) (f : String) (kind : FetchKind) :
    Except Err (List ℚ) :=
  match str_conv block_size period f kind with
  | some v => .ok v
  | none => .error .malformedResponse

/-- Model of `parsed[-1].decode('ascii')`: the status tail of the binary reply. -/
def getEnding (parsed : List Bytes) : Except Err String :=
  match parsed.getLast? with
  | some b => decodeAscii b
  | none => .error .indexError

/-- Model of `Thm1176.parse_binary_responses(kind, res_in)`: three IEEE blocks
(the header of the buffer's first block is re-parsed for each, as in the
source), each payload read at the running `glob_offset` and followed by
a 4-byte separator, except that the separator after the third block is
only 1 byte (`glob_offset -= 3`); the remaining bytes are split on `;`
into the timestamp / temperature fields and the status tail, the status
checked as `ending.split('\n')[0] == '4'`. -/
def parse_binary_responses (drainResps : List String) (kind : String) (res_in : Bytes)
    (s : State) : Except Err (State × ℕ) :=
  if kind = "fetch" then do
    let (o1, len1) ← parse_ieee_block_header res_in
    let g1 : ℤ := 0 + (o1 : ℤ)
    let aBx ← from_binary_block res_in g1 len1
    let g1e := g1 + len1 + 4
    let (o2, len2) ← parse_ieee_block_header res_in
    let g2 := g1e + (o2 : ℤ)
    let aBy ← from_binary_block res_in g2 len2
    let g2e := g2 + len2 + 4
    let (o3, len3) ← parse_ieee_block_header res_in
    let g3 := g2e + (o3 : ℤ)
    let aBz ← from_binary_block res_in g3 len3
    let g3e := g3 + len3 + 4
    let gTail := g3e - 3
    let parsed := splitOnByte semiByte (bytesDropInt res_in gTail)
    let fTs ← getFieldBytes parsed 0
    let vTs ← convTail s.block_size s.period fTs .Timestamp
    let fTe ← getFieldBytes parsed 1
    let vTe ← convTail s.block_size s.period fTe .Temperature
    let ending ← getEnding parsed
    let s1 := { s with last_reading :=
      ⟨some (aBx.map fun z : ℤ => (z : ℚ)), some (aBy.map fun z : ℤ => (z : ℚ)),
       some (aBz.map fun z : ℤ => (z : ℚ)), some vTs, some vTe⟩ }
    if (pySplit '\n' ending).headD "" = "4" then do
      match drainErrors s1.errors drainResps with
      | .ok (es, q) => .ok ({ s1 with errors := es }, q)
      | .error e => .error e
    else
      .ok (s1, 0)
  else
    .ok (s, 0)

/-! ### Acquisition driver -/

/-- The transport's responses for one fetch cycle: the reply to the
composite fetch command (as text for the ASCII format, as a raw buffer
for the INTEGER format) and the successive replies the device would
give to repeated `:SYSTEM:ERROR?;*STB?` queries. -/
structure CycleInput where
  asciiReply : String
  binaryReply : Bytes
  drainResps : List String
deriving DecidableEq

/-- Transport operations performed during one call, in order. -/
inductive TransportOp
  | fetchAsk (cmd : Option String)
  | fetchWrite (cmd : Option String)
  | readRaw
  | errorQuery
deriving DecidableEq

/-- Model of `Thm1176.get_data_array`: a no-op unless `running`; dispatches on
the configured format to the matching decoder (an unrecognised format
also does nothing).  Returns the new state and the transport trace. -/
def get_data_array (inp : CycleInput) (s : State) :
    Except Err (State × List TransportOp) :=
  if s.running then
    if s.format = "ASCII" then
      match parse_ascii_responses inp.drainResps "fetch" inp.asciiReply s with
      | .ok (s1, q) =>
        .ok (s1, .fetchAsk s.fetch_cmd :: List.replicate q .errorQuery)
      | .error e => .error e
    else if s.format = "INTEGER" then
      match parse_binary_responses inp.drainResps "fetch" inp.binaryReply s with
      | .ok (s1, q) =>
        .ok (s1, .fetchWrite s.fetch_cmd :: .readRaw :: List.replicate q .errorQuery)
      | .error e => .error e
    else
      .ok (s, [])
  else
    .ok (s, [])

/-- Model of `np.hstack((data_stack[key], last_reading[key]))`: concatenation;
stacking onto a still-`None` reading raises (`unsetReading`). -/
def hstack1 (stack : List ℚ) (lr : Option (List ℚ)) : Except Err (List ℚ) :=
  match lr with
  | some v => .ok (stack ++ v)
  | none => .error .unsetReading

/-- The loop body's dict comprehension: append every fetch kind's last
reading to its accumulator. -/
def stackAppend (st : Stacks) (lr : Readings) : Except Err Stacks := do
  let vBx ← hstack1 st.Bx lr.Bx
  let vBy ← hstack1 st.By lr.By
  let vBz ← hstack1 st.Bz lr.Bz
  let vTs ← hstack1 st.Timestamp lr.Timestamp
  let vTe ← hstack1 st.Temperature lr.Temperature
  .ok ⟨vBx, vBy, vBz, vTs, vTe⟩

/-- The `while not self.stop` loop of `start_acquisition`: one
fetch-decode-append iteration per supplied cycle input (the external
stop flag is observed after the last one). -/
def runCycles : List CycleInput → State → Except Err State
  | [], s => .ok s
  | inp :: rest, s =>
    match get_data_array inp s with
    | .ok (s1, _) =>
      match stackAppend s1.data_stack s1.last_reading with
      | .ok st => runCycles rest { s1 with data_stack := st }
      | .error e => .error e
    | .error e => .error e

/-- Model of `Thm1176.start_acquisition`: set `running`, clear `stop`, arm the
trigger (`:INIT`), run the loop until the stop flag is observed (after
`cycles.length` iterations), send the abort query and clear `running`.
Note: the accumulators are NOT reset here. -/
def start_acquisition (cycles : List CycleInput) (s : State) : Except Err State :=
  match runCycles cycles { s with running := true, stop := false } with
  | .ok sN => .ok { sN with running := false }
  | .error e => .error e

/-! ### Claim C9 -/

/-- Claim C9: when the driver is not running, `get_data_array` is a
complete no-op — no transport operation is performed and the state
(including `last_reading`, `data_stack` and the error log) is returned
unchanged, with no error. -/
theorem claim_C9 (inp : CycleInput) (s : State) (h : s.running = false) :
    get_data_array inp s = .ok (s, []) := by
  simp [get_data_array, h]

/-- Witness for C9: a freshly initialised driver (not running) ignores a
fetch request entirely. -/
theorem claim_C9_witness :
    get_data_array ⟨"", [], []⟩ initState = .ok (initState, []) :=
  claim_C9 ⟨"", [], []⟩ initState rfl

/-! ### Claim C3 -/

/-- A buffer without the `#` marker makes `find` fail. -/
theorem findIdx_none_of_no_hash : ∀ bs : Bytes, (∀ b ∈ bs, b ≠ hashByte) →
    ∀ i, List.findIdx? (· == hashByte) bs i = none := by
  intro bs
  induction bs with
  | nil =>
    intro h i
    simp [List.findIdx?_nil]
  | cons x xs ih =>
    intro h i
    have hx : (x == hashByte) = false := by
      simp only [beq_eq_false_iff_ne, ne_eq]
      exact h x (List.mem_cons_self x xs)
    rw [List.findIdx?_cons, hx]
    simp only [Bool.false_eq_true, if_false]
    exact ih (fun b hb => h b (List.mem_cons_of_mem x hb)) (i + 1)

/-- Claim C3 (settled as a code bug): for a buffer containing no `#`
byte, the block-header parse and the whole binary decode fail with the
`MalformedResponse` condition, and — contrary to the claim — the
failure propagates out of the running acquisition loop as an unhandled
error (there is no handler in `get_data_array` / `start_acquisition`),
rather than the loop continuing or terminating the run cleanly.  The
accumulators are indeed untouched: the error occurs before any append. -/
theorem claim_C3 (bs : Bytes) (h : ∀ b ∈ bs, b ≠ hashByte) (s : State)
    (drainResps : List String) :
    parse_ieee_block_header bs = .error .malformedResponse ∧
    parse_binary_responses drainResps "fetch" bs s = .error .malformedResponse ∧
    (∀ (inp : CycleInput) (rest : List CycleInput),
      inp.binaryReply = bs → s.running = true → s.format = "INTEGER" →
      runCycles (inp :: rest) s = .error .malformedResponse) := by
  have h1 : parse_ieee_block_header bs = .error .malformedResponse := by
    simp [parse_ieee_block_header, findIdx_none_of_no_hash bs h 0]
  have h2 : ∀ dr : List String,
      parse_binary_responses dr "fetch" bs s = .error .malformedResponse := by
    intro dr
    simp [parse_binary_responses, h1, Bind.bind, Except.bind]
  refine ⟨h1, h2 drainResps, ?_⟩
  intro inp rest hb hr hf
  simp [runCycles, get_data_array, hr, hf, hb, h2 inp.drainResps]

/-- Witness for C3: the concrete buffer `b"abc"` (no `#`) fails the
decode with `MalformedResponse`, and a running INTEGER-format driver
fed that buffer propagates the error out of its acquisition loop. -/
theorem claim_C3_witness :
    parse_ieee_block_header [97, 98, 99] = .error .malformedResponse ∧
    runCycles [⟨"", [97, 98, 99], []⟩] { initState with running := true } =
      .error .malformedResponse := by
  have h := claim_C3 [97, 98, 99] (by decide) { initState with running := true } []
  exact ⟨h.1, h.2.2 ⟨"", [97, 98, 99], []⟩ [] rfl rfl rfl⟩

/-! ### Claim C4 -/

/-- Inversion for a successful `Except` bind. -/
theorem except_bind_ok {α β : Type} {x : Except Err α} {f : α → Except Err β} {b : β}
    (h : (x >>= f) = .ok b) : ∃ a, x = .ok a ∧ f a = .ok b := by
  cases x with
  | ok a => exact ⟨a, rfl, h⟩
  | error e =>
    simp [Bind.bind, Except.bind] at h

/-- What a successful error drain did: it consumed the first `q`
available responses (`1 ≤ q`), appended exactly those to the log, the
last consumed response is the first whose leading character is `'0'`,
and no earlier consumed response starts with `'0'`. -/
theorem drainErrors_ok : ∀ (resps : List String) (errors es : List String) (q : ℕ),
    drainErrors errors resps = .ok (es, q) →
    1 ≤ q ∧ q ≤ resps.length ∧ es = errors ++ resps.take q ∧
    (resps.getD (q - 1) "").front = '0' ∧
    (∀ i, i < q - 1 → (resps.getD i "").front ≠ '0') := by
  intro resps
  induction resps with
  | nil =>
    intro errors es q h
    simp [drainErrors] at h
  | cons r rest ih =>
    intro errors es q h
    simp only [drainErrors] at h
    by_cases hemp : r.isEmpty
    · simp [hemp] at h
    · simp only [hemp, Bool.false_eq_true, if_false] at h
      by_cases hz : r.front = '0'
      · rw [if_pos hz] at h
        obtain ⟨hes, hq⟩ : es = errors ++ [r] ∧ 1 = q := by
          cases h
          exact ⟨rfl, rfl⟩
        subst hq
        refine ⟨le_refl 1, by simp, by simpa using hes, by simpa using hz, ?_⟩
        intro i hi
        omega
      · rw [if_neg hz] at h
        cases hdr : drainErrors (errors ++ [r]) rest with
        | error e =>
          rw [hdr] at h
          cases h
        | ok p =>
          obtain ⟨es', q'⟩ := p
          rw [hdr] at h
          obtain ⟨hes, hq⟩ : es' = es ∧ q' + 1 = q := by
            cases h
            exact ⟨rfl, rfl⟩
          subst hes
          subst hq
          obtain ⟨hq1, hqlen, hes, hlast, hprev⟩ := ih (errors ++ [r]) es' q' hdr
          obtain ⟨j, rfl⟩ : ∃ j, q' = j + 1 := ⟨q' - 1, by omega⟩
          refine ⟨by omega, by simpa using by omega, ?_, ?_, ?_⟩
          · rw [hes]
            simp [List.take_succ_cons]
          · simpa using hlast
          · intro i hi
            match i with
            | 0 => simpa using hz
            | k + 1 =>
              have := hprev k (by omega)
              simpa using this

/-- Claim C4: after a successful ASCII decode, the status field `'4'`
(the last `;`-field of the reply) triggers exactly the drain loop:
`q ≥ 1` error queries are issued, every response (including the
terminating one) is appended to the error log, the log grows by exactly
`q`, and the drain stops exactly at the first response whose leading
character is `'0'`.  Any other status field issues no query and leaves
the log unchanged. -/
theorem claim_C4 (s s' : State) (reply : String) (drainResps : List String) (q : ℕ)
    (h : parse_ascii_responses drainResps "fetch" reply s = .ok (s', q)) :
    ((pySplit ';' reply).getLast? = some "4" →
      1 ≤ q ∧ q ≤ drainResps.length ∧
      s'.errors = s.errors ++ drainResps.take q ∧
      s'.errors.length = s.errors.length + q ∧
      (drainResps.getD (q - 1) "").front = '0' ∧
      (∀ i, i < q - 1 → (drainResps.getD i "").front ≠ '0')) ∧
    ((pySplit ';' reply).getLast? ≠ some "4" → q = 0 ∧ s'.errors = s.errors) := by
  rw [parse_ascii_responses, if_pos rfl] at h
  obtain ⟨vBx, hBx, h⟩ := except_bind_ok h
  obtain ⟨vBy, hBy, h⟩ := except_bind_ok h
  obtain ⟨vBz, hBz, h⟩ := except_bind_ok h
  obtain ⟨vTs, hTs, h⟩ := except_bind_ok h
  obtain ⟨vTe, hTe, h⟩ := except_bind_ok h
  by_cases h4 : (pySplit ';' reply).getLast? = some "4"
  · rw [if_pos h4] at h
    cases hdr : drainErrors s.errors drainResps with
    | error e =>
      rw [hdr] at h
      cases h
    | ok p =>
      obtain ⟨es, q''⟩ := p
      rw [hdr] at h
      obtain ⟨hs', hq⟩ : ({ s with
          last_reading := ⟨some vBx, some vBy, some vBz, some vTs, some vTe⟩,
          errors := es } : State) = s' ∧ q'' = q := by
        cases h
        exact ⟨rfl, rfl⟩
      subst hq
      obtain ⟨hq1, hqlen, hes, hlast, hprev⟩ := drainErrors_ok drainResps s.errors es q'' hdr
      constructor
      · intro _
        refine ⟨hq1, hqlen, ?_, ?_, hlast, hprev⟩
        · rw [← hs']
          exact hes
        · rw [← hs']
          simp only [hes, List.length_append, List.length_take]
          omega
      · intro hc
        exact absurd h4 hc
  · rw [if_neg h4] at h
    obtain ⟨hs', hq⟩ : ({ s with
        last_reading := ⟨some vBx, some vBy, some vBz, some vTs, some vTe⟩ } : State) = s'
        ∧ 0 = q := by
      cases h
      exact ⟨rfl, rfl⟩
    subst hq
    constructor
    · intro hc
      exact absurd hc h4
    · intro _
      exact ⟨rfl, by rw [← hs']⟩

/-- A running ASCII-format driver with `block_size = 1`, used by the C4
witness. -/
def stateW : State :=
  { initState with running := true, block_size := 1, period := 1/2, format := "ASCII" }

/-- The readings decoded from the reply `"1;2;3;4;5;…"` at
`block_size = 1` (timestamp `4` ns = `4e-9` s). -/
def stateW4lr : Readings :=
  ⟨some [1], some [2], some [3], some [1/250000000], some [5]⟩

/-- Expected state after decoding `"1;2;3;4;5;4"` and draining two
error responses. -/
def stateW4out : State :=
  { stateW with last_reading := stateW4lr, errors := ["1,boom", "0,ok"] }

/-- Expected state after decoding `"1;2;3;4;5;0"` (no drain). -/
def stateW0out : State :=
  { stateW with last_reading := stateW4lr }

/-- The C4 witness drain run (status `'4'`). -/
def parseAsciiW4 : Except Err (State × ℕ) :=
  parse_ascii_responses ["1,boom", "0,ok"] "fetch" "1;2;3;4;5;4" stateW

/-- The C4 witness non-drain run (status `'0'`). -/
def parseAsciiW0 : Except Err (State × ℕ) :=
  parse_ascii_responses [] "fetch" "1;2;3;4;5;0" stateW

/-- Witness for C4: a decoded reply with status `'4'` drains two device
responses (the first not starting with `'0'`, the second starting with
`'0'`), appending both to the log; the same reply with status `'0'`
issues no query. -/
theorem claim_C4_witness :
    parseAsciiW4.map Prod.snd = Except.ok 2 ∧
    parseAsciiW4.map (fun p => p.1.errors) = Except.ok ["1,boom", "0,ok"] ∧
    parseAsciiW0.map Prod.snd = Except.ok 0 ∧
    parseAsciiW0.map (fun p => p.1.errors) = Except.ok [] := by
  have h4 : parse_ascii_responses ["1,boom", "0,ok"] "fetch" "1;2;3;4;5;4" stateW =
      .ok (stateW4out, 2) := by
    have hd : ("1;2;3;4;5;4".data) = ['1', ';', '2', ';', '3', ';', '4', ';', '5', ';', '4'] := by
      decide
    simp only [parse_ascii_responses, pySplit, hd, stateW, initState]
    simp +decide [splitChars, convField, getField, str_conv, npFromstring,
      npFromstring.go, stripT, parseFloatQ, trimChars, isPySpace, charsToNat,
      pyIntBase0, parseNatBase0, parseNatDec, parseNatInBase, pyIntDec, digitVal,
      linspace, drainErrors, Bind.bind, Except.bind, stateW4out, stateW4lr, stateW,
      initState]
    norm_num
  have h0 : parse_ascii_responses [] "fetch" "1;2;3;4;5;0" stateW =
      .ok (stateW0out, 0) := by
    have hd : ("1;2;3;4;5;0".data) = ['1', ';', '2', ';', '3', ';', '4', ';', '5', ';', '0'] := by
      decide
    simp only [parse_ascii_responses, pySplit, hd, stateW, initState]
    simp +decide [splitChars, convField, getField, str_conv, npFromstring,
      npFromstring.go, stripT, parseFloatQ, trimChars, isPySpace, charsToNat,
      pyIntBase0, parseNatBase0, parseNatDec, parseNatInBase, pyIntDec, digitVal,
      linspace, drainErrors, Bind.bind, Except.bind, stateW0out, stateW4lr, stateW,
      initState]
    norm_num
  have a4 := claim_C4 stateW stateW4out "1;2;3;4;5;4" ["1,boom", "0,ok"] 2 h4
  have a0 := claim_C4 stateW stateW0out "1;2;3;4;5;0" [] 0 h0
  have hl4 : (pySplit ';' "1;2;3;4;5;4").getLast? = some "4" := by decide
  have hl0 : (pySplit ';' "1;2;3;4;5;0").getLast? ≠ some "4" := by decide
  obtain ⟨e1, e2, e3, e4, e5, e6⟩ := a4.1 hl4
  obtain ⟨f1, f2⟩ := a0.2 hl0
  refine ⟨?_, ?_, ?_, ?_⟩
  · simp only [parseAsciiW4, h4, Except.map]
  · simp only [parseAsciiW4, h4, Except.map]
    rw [show stateW4out.errors = stateW.errors ++ List.take 2 ["1,boom", "0,ok"] from e3]
    simp [stateW, initState]
  · simp only [parseAsciiW0, h0, Except.map]
  · simp only [parseAsciiW0, h0, Except.map]
    rw [show stateW0out.errors = stateW.errors from f2]
    simp [stateW, initState]

/-! ### Frame lemmas for the decoders and the driver loop -/

/-- A successful ASCII decode touches only `last_reading` and `errors`:
every other attribute, in particular `data_stack`, is unchanged. -/
theorem parse_ascii_frame (dr : List String) (kind r : String) (s s' : State) (q : ℕ)
    (h : parse_ascii_responses dr kind r s = .ok (s', q)) :
    s'.data_stack = s.data_stack ∧ s'.running = s.running ∧ s'.stop = s.stop ∧
    s'.fetch_cmd = s.fetch_cmd ∧ s'.block_size = s.block_size ∧ s'.period = s.period ∧
    s'.range = s.range ∧ s'.average = s.average ∧ s'.format = s.format := by
  rw [parse_ascii_responses] at h
  by_cases hk : kind = "fetch"
  · rw [if_pos hk] at h
    obtain ⟨vBx, hBx, h⟩ := except_bind_ok h
    obtain ⟨vBy, hBy, h⟩ := except_bind_ok h
    obtain ⟨vBz, hBz, h⟩ := except_bind_ok h
    obtain ⟨vTs, hTs, h⟩ := except_bind_ok h
    obtain ⟨vTe, hTe, h⟩ := except_bind_ok h
    by_cases h4 : (pySplit ';' r).getLast? = some "4"
    · rw [if_pos h4] at h
      cases hdr : drainErrors s.errors dr with
      | error e =>
        rw [hdr] at h
        cases h
      | ok p =>
        obtain ⟨es, q'⟩ := p
        rw [hdr] at h
        cases h
        exact ⟨rfl, rfl, rfl, rfl, rfl, rfl, rfl, rfl, rfl⟩
    · rw [if_neg h4] at h
      cases h
      exact ⟨rfl, rfl, rfl, rfl, rfl, rfl, rfl, rfl, rfl⟩
  · rw [if_neg hk] at h
    cases h
    exact ⟨rfl, rfl, rfl, rfl, rfl, rfl, rfl, rfl, rfl⟩

/-- A successful binary decode touches only `last_reading` and `errors`. -/
theorem parse_binary_frame (dr : List String) (kind : String) (r : Bytes) (s s' : State)
    (q : ℕ) (h : parse_binary_responses dr kind r s = .ok (s', q)) :
    s'.data_stack = s.data_stack ∧ s'.running = s.running ∧ s'.stop = s.stop ∧
    s'.fetch_cmd = s.fetch_cmd ∧ s'.block_size = s.block_size ∧ s'.period = s.period ∧
    s'.range = s.range ∧ s'.average = s.average ∧ s'.format = s.format := by
  rw [parse_binary_responses] at h
  by_cases hk : kind = "fetch"
  · rw [if_pos hk] at h
    obtain ⟨o1, ho1, h⟩ := except_bind_ok h
    obtain ⟨aBx, haBx, h⟩ := except_bind_ok h
    obtain ⟨o2, ho2, h⟩ := except_bind_ok h
    obtain ⟨aBy, haBy, h⟩ := except_bind_ok h
    obtain ⟨o3, ho3, h⟩ := except_bind_ok h
    obtain ⟨aBz, haBz, h⟩ := except_bind_ok h
    obtain ⟨fTs, hfTs, h⟩ := except_bind_ok h
    obtain ⟨vTs, hvTs, h⟩ := except_bind_ok h
    obtain ⟨fTe, hfTe, h⟩ := except_bind_ok h
    obtain ⟨vTe, hvTe, h⟩ := except_bind_ok h
    obtain ⟨ending, hend, h⟩ := except_bind_ok h
    by_cases h4 : (pySplit '\n' ending).headD "" = "4"
    · rw [if_pos h4] at h
      cases hdr : drainErrors s.errors dr with
      | error e =>
        rw [hdr] at h
        cases h
      | ok p =>
        obtain ⟨es, q'⟩ := p
        rw [hdr] at h
        cases h
        exact ⟨rfl, rfl, rfl, rfl, rfl, rfl, rfl, rfl, rfl⟩
    · rw [if_neg h4] at h
      cases h
      exact ⟨rfl, rfl, rfl, rfl, rfl, rfl, rfl, rfl, rfl⟩
  · rw [if_neg hk] at h
    cases h
    exact ⟨rfl, rfl, rfl, rfl, rfl, rfl, rfl, rfl, rfl⟩

/-- A successful fetch leaves `data_stack` and the configuration
untouched. -/
theorem get_data_array_frame (inp : CycleInput) (s s1 : State) (tr : List TransportOp)
    (h : get_data_array inp s = .ok (s1, tr)) :
    s1.data_stack = s.data_stack ∧ s1.running = s.running ∧ s1.stop = s.stop ∧
    s1.fetch_cmd = s.fetch_cmd ∧ s1.block_size = s.block_size ∧ s1.period = s.period ∧
    s1.range = s.range ∧ s1.average = s.average ∧ s1.format = s.format := by
  rw [get_data_array] at h
  by_cases hr : s.running = true
  · rw [if_pos hr] at h
    by_cases ha : s.format = "ASCII"
    · rw [if_pos ha] at h
      cases hp : parse_ascii_responses inp.drainResps "fetch" inp.asciiReply s with
      | error e =>
        rw [hp] at h
        cases h
      | ok p =>
        obtain ⟨s', q⟩ := p
        rw [hp] at h
        cases h
        exact parse_ascii_frame _ _ _ _ _ _ hp
    · rw [if_neg ha] at h
      by_cases hb : s.format = "INTEGER"
      · rw [if_pos hb] at h
        cases hp : parse_binary_responses inp.drainResps "fetch" inp.binaryReply s with
        | error e =>
          rw [hp] at h
          cases h
        | ok p =>
          obtain ⟨s', q⟩ := p
          rw [hp] at h
          cases h
          exact parse_binary_frame _ _ _ _ _ _ hp
      · rw [if_neg hb] at h
        cases h
        exact ⟨rfl, rfl, rfl, rfl, rfl, rfl, rfl, rfl, rfl⟩
  · rw [if_neg hr] at h
    cases h
    exact ⟨rfl, rfl, rfl, rfl, rfl, rfl, rfl, rfl, rfl⟩

/-- Inversion of one `np.hstack`. -/
theorem hstack1_ok {stack v' : List ℚ} {lr : Option (List ℚ)}
    (h : hstack1 stack lr = .ok v') : ∃ v, lr = some v ∧ v' = stack ++ v := by
  cases lr with
  | none => simp [hstack1] at h
  | some v =>
    refine ⟨v, rfl, ?_⟩
    cases h
    rfl

/-- A successful accumulator append concatenates each fetch kind's last
reading onto its stack. -/
theorem stackAppend_ok (st : Stacks) (lr : Readings) (st' : Stacks)
    (h : stackAppend st lr = .ok st') :
    ∀ kind, ∃ v, lr.get kind = some v ∧ st'.get kind = st.get kind ++ v := by
  rw [stackAppend] at h
  obtain ⟨vBx, hBx, h⟩ := except_bind_ok h
  obtain ⟨vBy, hBy, h⟩ := except_bind_ok h
  obtain ⟨vBz, hBz, h⟩ := except_bind_ok h
  obtain ⟨vTs, hTs, h⟩ := except_bind_ok h
  obtain ⟨vTe, hTe, h⟩ := except_bind_ok h
  cases h
  intro kind
  cases kind with
  | Bx =>
    obtain ⟨v, hv, rfl⟩ := hstack1_ok hBx
    exact ⟨v, hv, rfl⟩
  | By =>
    obtain ⟨v, hv, rfl⟩ := hstack1_ok hBy
    exact ⟨v, hv, rfl⟩
  | Bz =>
    obtain ⟨v, hv, rfl⟩ := hstack1_ok hBz
    exact ⟨v, hv, rfl⟩
  | Timestamp =>
    obtain ⟨v, hv, rfl⟩ := hstack1_ok hTs
    exact ⟨v, hv, rfl⟩
  | Temperature =>
    obtain ⟨v, hv, rfl⟩ := hstack1_ok hTe
    exact ⟨v, hv, rfl⟩

/-- Each loop iteration only appends to every accumulator. -/
theorem runCycles_appends : ∀ (cycles : List CycleInput) (s sN : State),
    runCycles cycles s = .ok sN →
    ∀ kind, ∃ added, sN.data_stack.get kind = s.data_stack.get kind ++ added := by
  intro cycles
  induction cycles with
  | nil =>
    intro s sN h kind
    cases h
    exact ⟨[], by simp⟩
  | cons inp rest ih =>
    intro s sN h kind
    rw [runCycles] at h
    cases hg : get_data_array inp s with
    | error e =>
      rw [hg] at h
      cases h
    | ok p =>
      obtain ⟨s1, tr⟩ := p
      simp only [hg] at h
      cases hst : stackAppend s1.data_stack s1.last_reading with
      | error e =>
        simp only [hst] at h
        cases h
      | ok st =>
        simp only [hst] at h
        obtain ⟨added2, h2⟩ := ih _ _ h kind
        obtain ⟨v, hv, hstk⟩ := stackAppend_ok _ _ _ hst kind
        have hframe := (get_data_array_frame _ _ _ _ hg).1
        refine ⟨v ++ added2, ?_⟩
        rw [h2]
        show st.get kind ++ added2 = _
        rw [hstk, hframe]
        simp [List.append_assoc]

/-! ### Claim C6 -/

/-- Driver state for the C6 counterexample: block size 1, ASCII format,
with `[42]` left in the Bx accumulator by a previous run. -/
def s6 : State :=
  { initState with
    block_size := 1
    period := 1/2
    format := "ASCII"
    data_stack := ⟨[42], [], [], [], []⟩ }

/-- One well-formed ASCII cycle reply for a block of one sample. -/
def cyc6 : CycleInput := ⟨"1;2;3;4;5;0", [], []⟩

/-- The readings decoded from `"1;2;3;4;5;0"` at block size 1. -/
def r6 : Readings := ⟨some [1], some [2], some [3], some [1/250000000], some [5]⟩

/-- The state after running one cycle from `s6`: the previous run's `42`
is still at the head of the Bx accumulator. -/
def s6out : State :=
  { s6 with
    last_reading := r6
    data_stack := ⟨[42, 1], [2], [3], [1/250000000], [5]⟩ }

/-- Evaluation of the one-cycle run from the stale state `s6`. -/
theorem run_C6_eval : start_acquisition [cyc6] s6 = .ok s6out := by
  have hd : ("1;2;3;4;5;0".data) = ['1', ';', '2', ';', '3', ';', '4', ';', '5', ';', '0'] := by
    decide
  simp only [start_acquisition, runCycles, get_data_array, parse_ascii_responses,
    pySplit, hd, s6, cyc6, initState]
  simp +decide [splitChars, convField, getField, str_conv, npFromstring,
    npFromstring.go, stripT, parseFloatQ, trimChars, isPySpace, charsToNat,
    pyIntBase0, parseNatBase0, parseNatDec, parseNatInBase, pyIntDec, digitVal,
    linspace, drainErrors, Bind.bind, Except.bind, stackAppend, hstack1,
    s6out, r6, s6, initState]
  norm_num

/-- Counterexample to claim C6: starting a fresh run from a driver whose
Bx accumulator still holds `[42]` yields `[42, 1]` after one
single-sample cycle — the accumulator was NOT reset to empty when the
run started, so the previous run's data is carried over (a reset would
have produced `[1]`). -/
theorem claim_C6_cex :
    start_acquisition [cyc6] s6 = .ok s6out ∧
    s6out.data_stack.Bx = [42, 1] ∧
    s6out.data_stack.Bx ≠ [1] := by
  refine ⟨run_C6_eval, rfl, ?_⟩
  intro hc
  simpa [s6out, s6] using congrArg List.length hc

/-- Claim C6 as amended: `start_acquisition` does not reset the
accumulators; after any successful run, each fetch kind's accumulator
equals its content at run start with the run's data appended after it
(the accumulators are empty only as initialised at construction). -/
theorem claim_C6_amended (cycles : List CycleInput) (s sN : State)
    (h : start_acquisition cycles s = .ok sN) :
    ∀ kind, ∃ added, sN.data_stack.get kind = s.data_stack.get kind ++ added := by
  rw [start_acquisition] at h
  cases hr : runCycles cycles { s with running := true, stop := false } with
  | error e =>
    rw [hr] at h
    cases h
  | ok s'' =>
    rw [hr] at h
    cases h
    intro kind
    obtain ⟨added, ha⟩ := runCycles_appends _ _ _ hr kind
    exact ⟨added, ha⟩

/-- Witness for the amended C6: in the concrete one-cycle run from `s6`,
the prior Bx content is a prefix of the final Bx accumulator. -/
theorem claim_C6_witness :
    ∃ added, s6out.data_stack.get FetchKind.Bx = s6.data_stack.get FetchKind.Bx ++ added :=
  claim_C6_amended [cyc6] s6 s6out run_C6_eval FetchKind.Bx

/-! ### Claim C7 -/

/-- A run of the acquisition loop in which every decoded reply
contributes exactly `k` values per fetch kind: each step is a
successful `get_data_array` whose resulting readings all have length
`k`, followed by the loop body's accumulator append. -/
inductive RunSteps (k : ℕ) : State → List CycleInput → State → Prop
  | nil (s : State) : RunSteps k s [] s
  | cons {s s1 sN : State} {inp : CycleInput} {tr : List TransportOp} {st : Stacks}
      {rest : List CycleInput}
      (hg : get_data_array inp s = .ok (s1, tr))
      (hlen : ∀ kind, (s1.last_reading.get kind).map List.length = some k)
      (hst : stackAppend s1.data_stack s1.last_reading = .ok st)
      (htail : RunSteps k { s1 with data_stack := st } rest sN) :
      RunSteps k s (inp :: rest) sN

/-- Claim C7 as amended: after `N` completed cycles each contributing
`k` values per fetch kind, the loop succeeds and every accumulator
holds its content at run start followed by the `N` cycle blocks in
order; its length is its initial length plus `N * k` (so exactly
`N * k` only when the run begins with empty accumulators — the
original claim ignored the carried-over content, see the
counterexample). -/
theorem claim_C7 (k : ℕ) (s sN : State) (cycles : List CycleInput)
    (h : RunSteps k s cycles sN) :
    runCycles cycles s = .ok sN ∧
    ∀ kind, ∃ vs : List (List ℚ),
      vs.length = cycles.length ∧ (∀ v ∈ vs, v.length = k) ∧
      sN.data_stack.get kind = s.data_stack.get kind ++ vs.flatten ∧
      (sN.data_stack.get kind).length = (s.data_stack.get kind).length + cycles.length * k := by
  induction h with
  | nil s => exact ⟨rfl, fun kind => ⟨[], rfl, by simp, by simp, by simp⟩⟩
  | @cons s s1 sN inp tr st rest hg hlen hst htail ih =>
    obtain ⟨hrun, hstacks⟩ := ih
    constructor
    · rw [runCycles]
      simp only [hg, hst]
      exact hrun
    · intro kind
      obtain ⟨vs, hvs1, hvs2, hvs3, hvs4⟩ := hstacks kind
      obtain ⟨v, hv, hstk⟩ := stackAppend_ok _ _ _ hst kind
      have hframe := (get_data_array_frame _ _ _ _ hg).1
      have hvlen : v.length = k := by
        have hk := hlen kind
        rw [hv] at hk
        simpa using hk
      have hmid : st.get kind = s.data_stack.get kind ++ v := by
        rw [hstk, hframe]
      refine ⟨v :: vs, by simp [hvs1], ?_, ?_, ?_⟩
      · intro x hx
        rcases List.mem_cons.mp hx with hx | hx
        · rw [hx]
          exact hvlen
        · exact hvs2 x hx
      · have h3 : sN.data_stack.get kind = st.get kind ++ vs.flatten := hvs3
        rw [h3, hmid]
        simp [List.append_assoc]
      · have h4 : (sN.data_stack.get kind).length = (st.get kind).length + rest.length * k :=
          hvs4
        rw [h4, hmid]
        simp only [List.length_append, List.length_cons, hvlen]
        ring_nf

/-- Driver state for the C7 counterexample: single-sample ASCII cycles,
with `[7, 8, 9]` left in the Bz accumulator by a previous run. -/
def s7 : State :=
  { initState with
    block_size := 1
    period := 1/2
    format := "ASCII"
    data_stack := ⟨[], [], [7, 8, 9], [], []⟩ }

/-- One well-formed single-sample cycle reply for the C7 counterexample. -/
def cyc7 : CycleInput := ⟨"1;2;3;4;5;0", [], []⟩

/-- The state after one cycle from `s7`. -/
def s7out : State :=
  { s7 with
    last_reading := ⟨some [1], some [2], some [3], some [1/250000000], some [5]⟩
    data_stack := ⟨[1], [2], [7, 8, 9, 3], [1/250000000], [5]⟩ }

/-- Evaluation of the one-cycle run from the stale state `s7`. -/
theorem run_C7_eval : start_acquisition [cyc7] s7 = .ok s7out := by
  have hd : ("1;2;3;4;5;0".data) = ['1', ';', '2', ';', '3', ';', '4', ';', '5', ';', '0'] := by
    decide
  simp only [start_acquisition, runCycles, get_data_array, parse_ascii_responses,
    pySplit, hd, s7, cyc7, initState]
  simp +decide [splitChars, convField, getField, str_conv, npFromstring,
    npFromstring.go, stripT, parseFloatQ, trimChars, isPySpace, charsToNat,
    pyIntBase0, parseNatBase0, parseNatDec, parseNatInBase, pyIntDec, digitVal,
    linspace, drainErrors, Bind.bind, Except.bind, stackAppend, hstack1,
    s7out, s7, initState]
  norm_num

/-- Counterexample to claim C7 as stated: a run of `N = 1` cycle with
`k = 1` value per fetch kind (every reading has length 1), started on a
driver whose Bz accumulator still holds 3 values from a previous run,
leaves the Bz accumulator with length 4, not `N * k = 1`. -/
theorem claim_C7_cex :
    start_acquisition [cyc7] s7 = .ok s7out ∧
    (∀ kind, (s7out.last_reading.get kind).map List.length = some 1) ∧
    (s7out.data_stack.get FetchKind.Bz).length = 4 ∧ 4 ≠ 1 * 1 := by
  refine ⟨run_C7_eval, ?_, rfl, by omega⟩
  intro kind
  cases kind <;> rfl

/-- Intermediate state of the C7 witness run (after the fetch, before
the accumulator append). -/
def stateW7mid : State :=
  { initState with
    running := true
    block_size := 1
    period := 1/2
    format := "ASCII"
    last_reading := ⟨some [1], some [2], some [3], some [1/250000000], some [5]⟩ }

/-- Final state of the C7 witness run. -/
def stateW7out : State :=
  { stateW7mid with data_stack := ⟨[1], [2], [3], [1/250000000], [5]⟩ }

/-- Witness for the amended C7: one concrete single-sample cycle from a
fresh running driver; the loop succeeds and the Bx accumulator's length
is its initial length (0) plus `1 * 1`. -/
theorem claim_C7_witness :
    runCycles [cyc7] { initState with
      running := true
      block_size := 1
      period := 1/2
      format := "ASCII" } = .ok stateW7out ∧
    (stateW7out.data_stack.get FetchKind.Bx).length =
      (({ initState with
          running := true
          block_size := 1
          period := 1/2
          format := "ASCII" } : State).data_stack.get FetchKind.Bx).length + 1 * 1 := by
  have hg : get_data_array cyc7 { initState with
      running := true
      block_size := 1
      period := 1/2
      format := "ASCII" } = .ok (stateW7mid, [TransportOp.fetchAsk none]) := by
    have hd : ("1;2;3;4;5;0".data) = ['1', ';', '2', ';', '3', ';', '4', ';', '5', ';', '0'] := by
      decide
    simp only [get_data_array, parse_ascii_responses, pySplit, hd, cyc7, initState,
      stateW7mid]
    simp +decide [splitChars, convField, getField, str_conv, npFromstring,
      npFromstring.go, stripT, parseFloatQ, trimChars, isPySpace, charsToNat,
      pyIntBase0, parseNatBase0, parseNatDec, parseNatInBase, pyIntDec, digitVal,
      linspace, drainErrors, Bind.bind, Except.bind]
    norm_num
  have hlen : ∀ kind, (stateW7mid.last_reading.get kind).map List.length = some 1 := by
    intro kind
    cases kind <;> rfl
  have hst : stackAppend stateW7mid.data_stack stateW7mid.last_reading =
      .ok ⟨[1], [2], [3], [1/250000000], [5]⟩ := by
    simp [stackAppend, hstack1, stateW7mid, initState, Bind.bind, Except.bind]
  have hsteps : RunSteps 1 { initState with
      running := true
      block_size := 1
      period := 1/2
      format := "ASCII" } [cyc7] stateW7out := by
    refine RunSteps.cons hg hlen hst ?_
    have : ({ stateW7mid with data_stack := ⟨[1], [2], [3], [1/250000000], [5]⟩ } : State)
        = stateW7out := by
      simp [stateW7mid, stateW7out, initState]
    rw [this]
    exact RunSteps.nil stateW7out
  obtain ⟨h1, h2⟩ := claim_C7 1 _ stateW7out [cyc7] hsteps
  obtain ⟨vs, _, _, _, h4⟩ := h2 FetchKind.Bx
  exact ⟨h1, h4⟩

/-! ### Claim C2: helper lemmas -/

/-- A single ASCII digit byte parses to its value. -/
theorem parseDigitsBytes_single (d : ℕ) (hd : d ≤ 9) :
    parseDigitsBytes [48 + d] = some d := by
  have hb : byteDigit (48 + d) = some d := by
    rw [byteDigit, if_pos (by omega)]
    congr 1
    omega
  simp [parseDigitsBytes, List.foldlM, hb]

/-- Splitting a buffer that starts with a separator-free chunk followed
by a separator peels off that chunk. -/
theorem splitOnByte_sep_cons (a rest : Bytes) (ha : ∀ b ∈ a, b ≠ semiByte) :
    splitOnByte semiByte (a ++ semiByte :: rest) = a :: splitOnByte semiByte rest := by
  induction a with
  | nil => simp [splitOnByte]
  | cons x xs ih =>
    have hx : x ≠ semiByte := ha x (List.mem_cons_self x xs)
    rw [List.cons_append, splitOnByte, if_neg hx,
      ih fun b hb => ha b (List.mem_cons_of_mem x hb)]

/-- Splitting a separator-free buffer returns it whole. -/
theorem splitOnByte_no_sep (a : Bytes) (ha : ∀ b ∈ a, b ≠ semiByte) :
    splitOnByte semiByte a = [a] := by
  induction a with
  | nil => rfl
  | cons x xs ih =>
    have hx : x ≠ semiByte := ha x (List.mem_cons_self x xs)
    rw [splitOnByte, if_neg hx, ih fun b hb => ha b (List.mem_cons_of_mem x hb)]

/-- ASCII encode/decode round-trip. -/
theorem decodeAscii_encode (str : String) (h : ∀ c ∈ str.data, c.toNat < 128) :
    decodeAscii (encodeAscii str) = .ok str := by
  rw [decodeAscii, encodeAscii]
  have hall : ((str.data.map Char.toNat).all fun b => decide (b < 128)) = true := by
    rw [List.all_eq_true]
    intro b hb
    obtain ⟨c, hc, rfl⟩ := List.mem_map.mp hb
    simpa using h c hc
  rw [if_pos hall]
  congr 1
  rw [List.map_map]
  have hmap : str.data.map (Char.ofNat ∘ Char.toNat) = str.data.map id := by
    apply List.map_congr_left
    intro c _
    simp [Function.comp, Char.ofNat_toNat]
  rw [hmap, List.map_id]

/-- A payload of `4 * n` bytes decodes to `n` int32 values. -/
theorem decodeI32List_length : ∀ (n : ℕ) (bs : Bytes), bs.length = 4 * n →
    (decodeI32List bs).length = n := by
  intro n
  induction n with
  | zero =>
    intro bs h
    have hb : bs = [] := List.eq_nil_of_length_eq_zero (by omega)
    subst hb
    rfl
  | succ m ih =>
    intro bs h
    cases bs with
    | nil => simp at h
    | cons b0 t0 =>
      cases t0 with
      | nil => simp at h; omega
      | cons b1 t1 =>
        cases t1 with
        | nil => simp at h; omega
        | cons b2 t2 =>
          cases t2 with
          | nil => simp at h; omega
          | cons b3 rest =>
            rw [decodeI32List, List.length_cons, ih rest (by simp at h; omega)]

/-- Evaluation of `from_binary_block` when the buffer after `off` starts
with a `4 * m`-byte payload. -/
theorem from_binary_block_eval (block : Bytes) (off : ℤ) (m : ℕ) (p rest : Bytes)
    (hm : 1 ≤ m) (hoff : 0 ≤ off) (hdrop : block.drop off.toNat = p ++ rest)
    (hp : p.length = 4 * m) :
    from_binary_block block off (4 * m : ℤ) = .ok (decodeI32List p) := by
  have htd : Int.tdiv (4 * m : ℤ) 4 = (m : ℤ) := by
    rw [Int.mul_comm]
    exact Int.mul_tdiv_cancel _ (by norm_num)
  have hle : off.toNat + 4 * m ≤ block.length := by
    have hlend : (block.drop off.toNat).length = block.length - off.toNat :=
      List.length_drop _ _
    rw [hdrop] at hlend
    simp only [List.length_append, hp] at hlend
    omega
  rw [from_binary_block, if_pos ⟨hoff, by positivity⟩]
  simp only [htd, Int.toNat_natCast]
  rw [if_pos hle, hdrop, List.take_left' hp]

/-- Evaluation of the IEEE block-header parse on a buffer that starts
with `#`, a one-digit header length `d` and `d` digits encoding the
payload byte count `4 * n`. -/
theorem parse_header_eval (d n : ℕ) (digits rest : Bytes)
    (hd1 : 1 ≤ d) (hd9 : d ≤ 9) (hdigL : digits.length = d)
    (hdigV : parseDigitsBytes digits = some (4 * n)) :
    parse_ieee_block_header ((hashByte :: (48 + d) :: digits) ++ rest) =
      .ok (2 + d, ((4 * n : ℕ) : ℤ)) := by
  rw [List.cons_append, List.cons_append, parse_ieee_block_header]
  have hfind : List.findIdx? (· == hashByte) (hashByte :: (48 + d) :: (digits ++ rest)) 0
      = some 0 := by
    rw [List.findIdx?_cons]
    simp
  rw [hfind]
  have hslice1 : (((hashByte : ℕ) :: (48 + d) :: (digits ++ rest)).drop (0 + 1)).take 1
      = [48 + d] := by
    simp
  have hslice2 : (((hashByte : ℕ) :: (48 + d) :: (digits ++ rest)).drop (0 + 2)).take d
      = digits := by
    show (digits ++ rest).take d = digits
    exact List.take_left' hdigL
  simp only [hslice1, parseDigitsBytes_single d hd9, Option.getD_some]
  rw [if_pos (by omega : 0 < d)]
  simp only [hslice2, hdigV]

/-- Claim C2: a well-formed binary reply of three consecutive IEEE
blocks — each a `#`-header with any (identical) header-length digit
count `d` announcing `4 * n` bytes, followed by `n` big-endian int32
values — with a 4-byte separator after the first and second block, a
1-byte separator after the third, and an ASCII tail of timestamp,
temperature and status fields joined by `;`, decodes into
`last_reading` as: the three payloads' int32 sequences of length `n`
for Bx, By, Bz in that order, and Timestamp / Temperature converted by
`str_conv` exactly as in the ASCII variant.  Nothing else in the state
changes and (status not pending-error) no error query is issued. -/
theorem claim_C2 (n d : ℕ) (hn : 1 ≤ n) (hd1 : 1 ≤ d) (hd9 : d ≤ 9)
    (digits p1 p2 p3 sep1 sep2 sep3 : Bytes)
    (hdigL : digits.length = d) (hdigV : parseDigitsBytes digits = some (4 * n))
    (hp1 : p1.length = 4 * n) (hp2 : p2.length = 4 * n) (hp3 : p3.length = 4 * n)
    (hs1 : sep1.length = 4) (hs2 : sep2.length = 4) (hs3 : sep3.length = 1)
    (tsStr tempStr statusStr : String)
    (hts : ∀ c ∈ tsStr.data, c.toNat < 128 ∧ c.toNat ≠ semiByte)
    (htemp : ∀ c ∈ tempStr.data, c.toNat < 128 ∧ c.toNat ≠ semiByte)
    (hstat : ∀ c ∈ statusStr.data, c.toNat < 128 ∧ c.toNat ≠ semiByte)
    (hnod : (pySplit '\n' statusStr).headD "" ≠ "4")
    (s : State) (dr : List String) (vTs vTe : List ℚ)
    (hvTs : str_conv s.block_size s.period tsStr .Timestamp = some vTs)
    (hvTe : str_conv s.block_size s.period tempStr .Temperature = some vTe)
    (tail buf : Bytes)
    (htail : tail = encodeAscii tsStr ++
      semiByte :: (encodeAscii tempStr ++ semiByte :: encodeAscii statusStr))
    (hbuf : buf = (hashByte :: (48 + d) :: digits) ++ (p1 ++ (sep1 ++
      ((hashByte :: (48 + d) :: digits) ++ (p2 ++ (sep2 ++
      ((hashByte :: (48 + d) :: digits) ++ (p3 ++ (sep3 ++ tail))))))))) :
    parse_binary_responses dr "fetch" buf s =
      .ok ({ s with last_reading :=
        ⟨some ((decodeI32List p1).map fun z : ℤ => (z : ℚ)),
         some ((decodeI32List p2).map fun z : ℤ => (z : ℚ)),
         some ((decodeI32List p3).map fun z : ℤ => (z : ℚ)),
         some vTs, some vTe⟩ }, 0) ∧
    (decodeI32List p1).length = n ∧ (decodeI32List p2).length = n ∧
    (decodeI32List p3).length = n := by
  have hhdrLen : (hashByte :: (48 + d) :: digits).length = 2 + d := by
    rw [List.length_cons, List.length_cons, hdigL]
    omega
  have hhdr : parse_ieee_block_header buf = .ok (2 + d, ((4 * n : ℕ) : ℤ)) := by
    rw [hbuf]
    exact parse_header_eval d n digits _ hd1 hd9 hdigL hdigV
  have t0 : buf.drop (2 + d) = p1 ++ (sep1 ++
      ((hashByte :: (48 + d) :: digits) ++ (p2 ++ (sep2 ++
      ((hashByte :: (48 + d) :: digits) ++ (p3 ++ (sep3 ++ tail))))))) := by
    rw [hbuf]
    exact List.drop_left' hhdrLen
  have t1 : buf.drop (2 + d + 4 * n) = sep1 ++
      ((hashByte :: (48 + d) :: digits) ++ (p2 ++ (sep2 ++
      ((hashByte :: (48 + d) :: digits) ++ (p3 ++ (sep3 ++ tail)))))) := by
    rw [← List.drop_drop, t0]
    exact List.drop_left' hp1
  have t2 : buf.drop (2 + d + 4 * n + 4) =
      (hashByte :: (48 + d) :: digits) ++ (p2 ++ (sep2 ++
      ((hashByte :: (48 + d) :: digits) ++ (p3 ++ (sep3 ++ tail))))) := by
    rw [← List.drop_drop, t1]
    exact List.drop_left' hs1
  have t3 : buf.drop (2 + d + 4 * n + 4 + (2 + d)) = p2 ++ (sep2 ++
      ((hashByte :: (48 + d) :: digits) ++ (p3 ++ (sep3 ++ tail)))) := by
    rw [← List.drop_drop, t2]
    exact List.drop_left' hhdrLen
  have t4 : buf.drop (2 + d + 4 * n + 4 + (2 + d) + 4 * n) = sep2 ++
      ((hashByte :: (48 + d) :: digits) ++ (p3 ++ (sep3 ++ tail))) := by
    rw [← List.drop_drop, t3]
    exact List.drop_left' hp2
  have t5 : buf.drop (2 + d + 4 * n + 4 + (2 + d) + 4 * n + 4) =
      (hashByte :: (48 + d) :: digits) ++ (p3 ++ (sep3 ++ tail)) := by
    rw [← List.drop_drop, t4]
    exact List.drop_left' hs2
  have t6 : buf.drop (2 + d + 4 * n + 4 + (2 + d) + 4 * n + 4 + (2 + d)) =
      p3 ++ (sep3 ++ tail) := by
    rw [← List.drop_drop, t5]
    exact List.drop_left' hhdrLen
  have t7 : buf.drop (2 + d + 4 * n + 4 + (2 + d) + 4 * n + 4 + (2 + d) + 4 * n) =
      sep3 ++ tail := by
    rw [← List.drop_drop, t6]
    exact List.drop_left' hp3
  have t8 : buf.drop (2 + d + 4 * n + 4 + (2 + d) + 4 * n + 4 + (2 + d) + 4 * n + 1) =
      tail := by
    rw [← List.drop_drop, t7]
    exact List.drop_left' hs3
  have hi1 : ((0 : ℤ) + ((2 + d : ℕ) : ℤ)).toNat = 2 + d := by omega
  have hdrop1 : buf.drop ((0 : ℤ) + ((2 + d : ℕ) : ℤ)).toNat = p1 ++ (sep1 ++
      ((hashByte :: (48 + d) :: digits) ++ (p2 ++ (sep2 ++
      ((hashByte :: (48 + d) :: digits) ++ (p3 ++ (sep3 ++ tail))))))) := by
    rw [hi1]
    exact t0
  have hfb1 : from_binary_block buf ((0 : ℤ) + ((2 + d : ℕ) : ℤ)) ((4 * n : ℕ) : ℤ) =
      .ok (decodeI32List p1) :=
    from_binary_block_eval buf ((0 : ℤ) + ((2 + d : ℕ) : ℤ)) n p1 _ hn
      (by omega) hdrop1 hp1
  have hi2 : ((0 : ℤ) + ((2 + d : ℕ) : ℤ) + ((4 * n : ℕ) : ℤ) + 4
      + ((2 + d : ℕ) : ℤ)).toNat = 2 + d + 4 * n + 4 + (2 + d) := by omega
  have hdrop2 : buf.drop ((0 : ℤ) + ((2 + d : ℕ) : ℤ) + ((4 * n : ℕ) : ℤ) + 4
      + ((2 + d : ℕ) : ℤ)).toNat = p2 ++ (sep2 ++
      ((hashByte :: (48 + d) :: digits) ++ (p3 ++ (sep3 ++ tail)))) := by
    rw [hi2]
    exact t3
  have hfb2 : from_binary_block buf ((0 : ℤ) + ((2 + d : ℕ) : ℤ) + ((4 * n : ℕ) : ℤ)
      + 4 + ((2 + d : ℕ) : ℤ)) ((4 * n : ℕ) : ℤ) = .ok (decodeI32List p2) :=
    from_binary_block_eval buf _ n p2 _ hn (by omega) hdrop2 hp2
  have hi3 : ((0 : ℤ) + ((2 + d : ℕ) : ℤ) + ((4 * n : ℕ) : ℤ) + 4 + ((2 + d : ℕ) : ℤ)
      + ((4 * n : ℕ) : ℤ) + 4 + ((2 + d : ℕ) : ℤ)).toNat
      = 2 + d + 4 * n + 4 + (2 + d) + 4 * n + 4 + (2 + d) := by omega
  have hdrop3 : buf.drop ((0 : ℤ) + ((2 + d : ℕ) : ℤ) + ((4 * n : ℕ) : ℤ) + 4
      + ((2 + d : ℕ) : ℤ) + ((4 * n : ℕ) : ℤ) + 4 + ((2 + d : ℕ) : ℤ)).toNat
      = p3 ++ (sep3 ++ tail) := by
    rw [hi3]
    exact t6
  have hfb3 : from_binary_block buf ((0 : ℤ) + ((2 + d : ℕ) : ℤ) + ((4 * n : ℕ) : ℤ)
      + 4 + ((2 + d : ℕ) : ℤ) + ((4 * n : ℕ) : ℤ) + 4 + ((2 + d : ℕ) : ℤ))
      ((4 * n : ℕ) : ℤ) = .ok (decodeI32List p3) :=
    from_binary_block_eval buf _ n p3 _ hn (by omega) hdrop3 hp3
  have hiT : ((0 : ℤ) + ((2 + d : ℕ) : ℤ) + ((4 * n : ℕ) : ℤ) + 4 + ((2 + d : ℕ) : ℤ)
      + ((4 * n : ℕ) : ℤ) + 4 + ((2 + d : ℕ) : ℤ) + ((4 * n : ℕ) : ℤ) + 4 - 3).toNat
      = 2 + d + 4 * n + 4 + (2 + d) + 4 * n + 4 + (2 + d) + 4 * n + 1 := by omega
  have hdropTail : bytesDropInt buf ((0 : ℤ) + ((2 + d : ℕ) : ℤ) + ((4 * n : ℕ) : ℤ)
      + 4 + ((2 + d : ℕ) : ℤ) + ((4 * n : ℕ) : ℤ) + 4 + ((2 + d : ℕ) : ℤ)
      + ((4 * n : ℕ) : ℤ) + 4 - 3) = tail := by
    rw [bytesDropInt, if_neg (by omega), hiT]
    exact t8
  have hts1 : ∀ b ∈ encodeAscii tsStr, b ≠ semiByte := by
    intro b hb
    obtain ⟨c, hc, rfl⟩ := List.mem_map.mp hb
    exact (hts c hc).2
  have htemp1 : ∀ b ∈ encodeAscii tempStr, b ≠ semiByte := by
    intro b hb
    obtain ⟨c, hc, rfl⟩ := List.mem_map.mp hb
    exact (htemp c hc).2
  have hstat1 : ∀ b ∈ encodeAscii statusStr, b ≠ semiByte := by
    intro b hb
    obtain ⟨c, hc, rfl⟩ := List.mem_map.mp hb
    exact (hstat c hc).2
  have hsplit : splitOnByte semiByte tail =
      [encodeAscii tsStr, encodeAscii tempStr, encodeAscii statusStr] := by
    rw [htail, splitOnByte_sep_cons _ _ hts1, splitOnByte_sep_cons _ _ htemp1,
      splitOnByte_no_sep _ hstat1]
  have hg0 : getFieldBytes
      [encodeAscii tsStr, encodeAscii tempStr, encodeAscii statusStr] 0 = .ok tsStr := by
    show decodeAscii (encodeAscii tsStr) = .ok tsStr
    exact decodeAscii_encode tsStr fun c hc => (hts c hc).1
  have hg1 : getFieldBytes
      [encodeAscii tsStr, encodeAscii tempStr, encodeAscii statusStr] 1 = .ok tempStr := by
    show decodeAscii (encodeAscii tempStr) = .ok tempStr
    exact decodeAscii_encode tempStr fun c hc => (htemp c hc).1
  have hge : getEnding
      [encodeAscii tsStr, encodeAscii tempStr, encodeAscii statusStr] = .ok statusStr := by
    show decodeAscii (encodeAscii statusStr) = .ok statusStr
    exact decodeAscii_encode statusStr fun c hc => (hstat c hc).1
  have hcTs : convTail s.block_size s.period tsStr .Timestamp = .ok vTs := by
    rw [convTail, hvTs]
  have hcTe : convTail s.block_size s.period tempStr .Temperature = .ok vTe := by
    rw [convTail, hvTe]
  refine ⟨?_, decodeI32List_length n p1 hp1, decodeI32List_length n p2 hp2,
    decodeI32List_length n p3 hp3⟩
  rw [parse_binary_responses, if_pos rfl]
  simp only [hhdr, Bind.bind, Except.bind, hfb1, hfb2, hfb3, hdropTail, hsplit,
    hg0, hg1, hcTs, hcTe, hge]
  rw [if_neg hnod]

/-- ASCII tail of the C2 witness buffer:
`b"2000000000;21;0"`. -/
def tailW : Bytes :=
  encodeAscii "2000000000" ++
    semiByte :: (encodeAscii "21" ++ semiByte :: encodeAscii "0")

/-- The C2 witness buffer: three `#18`-headed blocks of two big-endian
int32 values each (`[7, 8]`, `[9, 10]`, `[11, -2]`), 4-byte separators
after blocks one and two, a 1-byte separator after block three, then
the ASCII tail. -/
def bufW : Bytes :=
  (hashByte :: (48 + 1) :: [56]) ++ ([0, 0, 0, 7, 0, 0, 0, 8] ++ ([1, 2, 3, 4] ++
    ((hashByte :: (48 + 1) :: [56]) ++ ([0, 0, 0, 9, 0, 0, 0, 10] ++ ([9, 9, 9, 9] ++
    ((hashByte :: (48 + 1) :: [56]) ++
      ([0, 0, 0, 11, 255, 255, 255, 254] ++ ([0] ++ tailW))))))))

/-- A running INTEGER-format driver with `block_size = 2`, for the C2
witness. -/
def sW2 : State :=
  { initState with running := true, block_size := 2, period := 1/2 }

/-- Witness for C2: the concrete buffer `bufW` (three 2-value int32
blocks with header `#18`, timestamp `2000000000` ns, temperature `21`,
status `0`) decodes to `Bx = [7, 8]`, `By = [9, 10]`, `Bz = [11, -2]`,
`Timestamp = [1.5, 2.0]` s, `Temperature = [21, 21]`, with no error
query. -/
theorem claim_C2_witness :
    parse_binary_responses [] "fetch" bufW sW2 =
      .ok ({ sW2 with last_reading :=
        ⟨some [7, 8], some [9, 10], some [11, -2], some [3/2, 2], some [21, 21]⟩ }, 0) := by
  have hvTs : str_conv sW2.block_size sW2.period "2000000000" FetchKind.Timestamp
      = some [3/2, 2] := by
    have hd : ("2000000000".data)
        = ['2', '0', '0', '0', '0', '0', '0', '0', '0', '0'] := by decide
    simp only [str_conv, pyIntBase0, hd, sW2, initState]
    simp +decide [trimChars, isPySpace, parseNatBase0, parseNatDec, parseNatInBase,
      digitVal, linspace, List.range_succ]
    norm_num
  have hvTe : str_conv sW2.block_size sW2.period "21" FetchKind.Temperature
      = some [21, 21] := by
    have hd : ("21".data) = ['2', '1'] := by decide
    simp only [str_conv, pyIntDec, hd, sW2, initState]
    simp +decide [trimChars, isPySpace, parseNatDec, parseNatInBase, digitVal,
      List.replicate]
  have h := claim_C2 2 1 (by omega) (by omega) (by omega)
    [56] [0, 0, 0, 7, 0, 0, 0, 8] [0, 0, 0, 9, 0, 0, 0, 10]
    [0, 0, 0, 11, 255, 255, 255, 254] [1, 2, 3, 4] [9, 9, 9, 9] [0]
    (by decide) (by decide) (by decide) (by decide) (by decide)
    (by decide) (by decide) (by decide)
    "2000000000" "21" "0" (by decide) (by decide) (by decide) (by decide)
    sW2 [] [3/2, 2] [21, 21] hvTs hvTe tailW bufW (by decide) (by decide)
  rw [h.1]
  have e1 : decodeI32List [0, 0, 0, 7, 0, 0, 0, 8] = [7, 8] := by decide
  have e2 : decodeI32List [0, 0, 0, 9, 0, 0, 0, 10] = [9, 10] := by decide
  have e3 : decodeI32List [0, 0, 0, 11, 255, 255, 255, 254] = [11, -2] := by decide
  rw [e1, e2, e3]
  norm_num

end Thm1176
